import Mathlib

/-!
Shallow embedding of the queuectl job-queue engine
(`src/queuectl/storage.py`, `src/queuectl/worker.py`,
`src/queuectl/backoff.py`, enqueue defaulting from `src/queuectl/cli.py`).

The SQLite store is modelled as an explicit `Store` value: the `jobs`
table is a list of rows in insertion order, the `dlq` table a list of
records with an autoincrement counter, the single `control` key
`stop_requested` as the optional stored value, and `config` as an
association list of string keys and values.  SQL `REAL` timestamps
(`time.time()` epoch seconds, `eta`) are modelled as rationals; ISO8601
`TEXT` timestamps are opaque strings compared lexicographically, which
matches SQLite's byte-wise TEXT collation on UTF-8.  The current time
is threaded into every operation that reads the clock (`now : ℚ` for
`time.time()`, `nowIso : String` for `_now_iso()`).  Each `BEGIN
IMMEDIATE` transaction of the source serialises conflicting writers, so
an operation is one atomic function from store to store.
-/

namespace Queuectl

/-- One row of the `jobs` table (schema in `storage.py`). -/
structure Job where
  id : String
  command : String
  state : String
  attempts : Int
  max_retries : Int
  eta : Option ℚ
  created_at : String
  updated_at : String
  deriving Repr, DecidableEq

/-- One row of the `dlq` table: autoincrement id, job id, the JSON
snapshot of the job row, the error text and the failure timestamp. -/
structure DlqRecord where
  id : Nat
  job_id : String
  payload : Job
  last_error : String
  failed_at : String
  deriving Repr, DecidableEq

/-- The whole durable store: jobs, DLQ (with its autoincrement
counter), the `stop_requested` control value, and the config table.
The `workers` table plays no role in the claims and is omitted. -/
structure Store where
  jobs : List Job
  dlq : List DlqRecord
  dlqNextId : Nat
  control_stop : Option String
  config : List (String × String)
  deriving Repr, DecidableEq

/-- The enqueue payload: a JSON object with required `id` and
`command` and the optional fields the code reads. -/
structure JobPayload where
  id : String
  command : String
  state : Option String := none
  attempts : Option Int := none
  max_retries : Option Int := none
  created_at : Option String := none
  updated_at : Option String := none
  deriving Repr, DecidableEq

/-- Python's `x or default` on an optional string: `None` and the
empty string are falsy. -/
def pyOr (v : Option String) (d : String) : String :=
  match v with
  | none => d
  | some s => if s = "" then d else s

/-- `Storage.config_get(key, default)`. -/
def config_get (st : Store) (key dflt : String) : String :=
  match st.config.find? (fun kv => decide (kv.1 = key)) with
  | some kv => kv.2
  | none => dflt

/-- The numeric value of a decimal digit character. -/
def digitVal (c : Char) : Option Nat :=
  if 48 ≤ c.toNat ∧ c.toNat ≤ 57 then some (c.toNat - 48) else none

/-- Parse a non-empty all-digit character list as a natural number. -/
def parseNat : List Char → Option Nat
  | [] => none
  | cs => cs.foldlM (fun n c => (digitVal c).map (fun d => n * 10 + d)) 0

/-- Parse an optionally minus-signed decimal integer. -/
def pyIntChars : List Char → Option Int
  | '-' :: rest => (parseNat rest).map (fun n => -(n : Int))
  | cs => (parseNat cs).map (fun n => (n : Int))

/-- Python `int(s)` on a config string; only decimal integer strings
are modelled (the values the code itself stores and defaults to). -/
def pyInt (s : String) : Option Int := pyIntChars s.data

/-- Python `float(s)` on a config string, as an exact rational; only
integer-valued strings are modelled (the stored default is `"2"`). -/
def pyFloat (s : String) : Option ℚ := (pyIntChars s.data).map (fun n => (n : ℚ))

/-- `SELECT * FROM jobs WHERE id = ?` (first matching row). -/
def getJobRow (st : Store) (job_id : String) : Option Job :=
  st.jobs.find? (fun j => decide (j.id = job_id))

/-- `UPDATE jobs SET ... WHERE id = ?`: apply `g` to every row whose
`id` matches. -/
def updateWhere (job_id : String) (g : Job → Job) (l : List Job) : List Job :=
  l.map (fun j => if j.id = job_id then g j else j)

/-- Errors surfaced by the enqueue path: `sqlite3.IntegrityError` on a
duplicate primary key, `ValueError` from `int()` on a bad config
value. -/
inductive EnqueueErr where
  | duplicateJob
  | invalidInt
  deriving Repr, DecidableEq

/-- `Storage.enqueue`: fill defaults, then `INSERT`; the `UNIQUE`
primary key makes the insert fail when the id already exists, and a
failed insert leaves the store untouched. `eta` is always `NULL`. -/
def Storage.enqueue (st : Store) (nowIso : String) (p : JobPayload) :
    Except EnqueueErr (String × Store) :=
  let created := pyOr p.created_at nowIso
  let updated := pyOr p.updated_at created
  let state := pyOr p.state "pending"
  let maxr := p.max_retries.getD 3
  let att := p.attempts.getD 0
  if st.jobs.any (fun j => decide (j.id = p.id)) then
    Except.error EnqueueErr.duplicateJob
  else
    Except.ok (p.id,
      { st with jobs := st.jobs ++
          [{ id := p.id, command := p.command, state := state, attempts := att,
             max_retries := maxr, eta := none, created_at := created,
             updated_at := updated }] })

/-- `cmd_enqueue` (cli.py): when the payload omits `max_retries`, fill
it from config key `max_retries` (default `"3"`) via `int()`; when it
omits `state`, fill `"pending"`; then call `Storage.enqueue`. -/
def cmd_enqueue (st : Store) (nowIso : String) (p : JobPayload) :
    Except EnqueueErr (String × Store) :=
  match (match p.max_retries with
         | some m => some m
         | none => pyInt (config_get st "max_retries" "3")) with
  | none => Except.error EnqueueErr.invalidInt
  | some m =>
      Storage.enqueue st nowIso
        { p with max_retries := some m, state := some (pyOr p.state "pending") }

/-- Eligibility predicate of the claim query:
`state='pending' AND (eta IS NULL OR eta <= now)`. -/
def eligibleB (now : ℚ) (j : Job) : Bool :=
  decide (j.state = "pending") &&
    (match j.eta with
     | none => true
     | some e => decide (e ≤ now))

/-- Strict comparison of the claim query's sort key
`(eta IS NOT NULL, created_at)`: NULL-`eta` rows sort first, then older
`created_at`. -/
def keyLtB (j k : Job) : Bool :=
  (!j.eta.isSome && k.eta.isSome) ||
    ((j.eta.isSome == k.eta.isSome) && decide (j.created_at < k.created_at))

/-- The row the claim query
`SELECT ... WHERE eligible ORDER BY eta IS NOT NULL, created_at ASC
LIMIT 1` returns: an eligible row minimal for the sort key. -/
def selectClaim (now : ℚ) : List Job → Option Job
  | [] => none
  | j :: rest =>
    let r := selectClaim now rest
    if eligibleB now j then
      match r with
      | none => some j
      | some b => if keyLtB b j then some b else some j
    else r

/-- `Storage.pop_pending_for_run`: inside one `BEGIN IMMEDIATE`
transaction, select one eligible pending row, flip it to
`processing`, and return the snapshot read *before* the update. -/
def pop_pending_for_run (st : Store) (now : ℚ) (nowIso : String) :
    Option Job × Store :=
  match selectClaim now st.jobs with
  | none => (none, st)
  | some row =>
    (some row,
     { st with jobs := updateWhere row.id (fun j =>
         { j with state := "processing", updated_at := nowIso }) st.jobs })

/-- `Storage.mark_completed`. -/
def mark_completed (st : Store) (nowIso : String) (job_id : String) : Store :=
  { st with jobs := updateWhere job_id (fun j =>
      { j with state := "completed", updated_at := nowIso, eta := none }) st.jobs }

/-- `Storage.mark_failed_retry`: caller-supplied attempt count, next
eligibility time `now + delay_seconds`. -/
def mark_failed_retry (st : Store) (now : ℚ) (nowIso : String)
    (job_id : String) (attempts : Int) (delay_seconds : ℚ) : Store :=
  { st with jobs := updateWhere job_id (fun j =>
      { j with state := "failed", attempts := attempts,
               eta := some (now + delay_seconds), updated_at := nowIso }) st.jobs }

/-- `Storage.move_to_dlq`: in one transaction, insert a DLQ record
holding the snapshot `job_row`, and set the job's row to `dead`. -/
def move_to_dlq (st : Store) (nowIso : String) (job_row : Job) (last_error : String) : Store :=
  { st with
    dlq := st.dlq ++
      [{ id := st.dlqNextId, job_id := job_row.id, payload := job_row,
         last_error := last_error, failed_at := nowIso }],
    dlqNextId := st.dlqNextId + 1,
    jobs := updateWhere job_row.id (fun j =>
      { j with state := "dead", updated_at := nowIso, eta := none }) st.jobs }

/-- `Storage.retry_from_dlq`: if a DLQ record with this `job_id`
exists, reset the job to pending and delete every DLQ record with
that `job_id`, returning `true`; otherwise return `false` with the
store untouched. -/
def retry_from_dlq (st : Store) (nowIso : String) (job_id : String) : Bool × Store :=
  if st.dlq.any (fun d => decide (d.job_id = job_id)) then
    (true,
     { st with
       jobs := updateWhere job_id (fun j =>
         { j with state := "pending", attempts := 0, eta := none,
                  updated_at := nowIso }) st.jobs,
       dlq := st.dlq.filter (fun d => !(decide (d.job_id = job_id))) })
  else (false, st)

/-- `Storage.request_stop`: `INSERT OR REPLACE` of
`('stop_requested', '1')`. -/
def request_stop (st : Store) : Store := { st with control_stop := some "1" }

/-- `Storage.clear_stop`: `DELETE FROM control WHERE
k='stop_requested'`. -/
def clear_stop (st : Store) : Store := { st with control_stop := none }

/-- `Storage.is_stop_requested`: whether the row is present. -/
def is_stop_requested (st : Store) : Bool := st.control_stop.isSome

/-- `compute_delay` (backoff.py): clamp negative attempts to zero,
then `base ** attempts`. -/
def compute_delay (base : ℚ) (attempts : Int) : ℚ :=
  let a := if attempts < 0 then 0 else attempts
  base ^ a.toNat

/-- The failure branch of `Worker.run_forever` for one failed
execution of the snapshot `job`: increment the local attempt count;
past `max_retries` move the snapshot to the DLQ, otherwise read
`backoff_base` from config (`float()` parse, `"2"` default), compute
the backoff delay and persist the deferred retry.  `none` models the
`float()` call raising on an unparsable config value. -/
def worker_fail_step (st : Store) (now : ℚ) (nowIso : String)
    (job : Job) (err : String) : Option Store :=
  let attempts := job.attempts + 1
  if attempts > job.max_retries then
    some (move_to_dlq st nowIso job err)
  else
    match pyFloat (config_get st "backoff_base" "2") with
    | none => none
    | some base =>
        some (mark_failed_retry st now nowIso job.id attempts
                (compute_delay base attempts))

/-- `n` consecutive failed executions of job `job_id` through the
worker's failure pipeline: each execution reads the job's current row
as its snapshot and applies the failure branch. -/
def fail_iterate (st : Store) (now : ℚ) (nowIso : String)
    (job_id err : String) : Nat → Option Store
  | 0 => some st
  | n + 1 =>
    match getJobRow st job_id with
    | none => none
    | some row =>
      match worker_fail_step st now nowIso row err with
      | none => none
      | some st' => fail_iterate st' now nowIso job_id err n

/-! ### Concrete stores used to exercise the operations -/

/-- A fixed ISO8601 timestamp for concrete stores. -/
def isoT0 : String := "2024-01-01T00:00:00Z"

/-- A freshly enqueued job with the default field values. -/
def jobA : Job :=
  { id := "a", command := "exit 1", state := "pending", attempts := 0,
    max_retries := 3, eta := none, created_at := isoT0, updated_at := isoT0 }

/-- The store right after `_init_db`: no rows anywhere. -/
def emptyStore : Store :=
  { jobs := [], dlq := [], dlqNextId := 1, control_stop := none, config := [] }

/-- A store holding exactly the one pending job `jobA`. -/
def stOne : Store :=
  { jobs := [jobA], dlq := [], dlqNextId := 1, control_stop := none, config := [] }

/-- A DLQ record for job `"a"`. -/
def dlqRecA : DlqRecord :=
  { id := 1, job_id := "a", payload := jobA, last_error := "Exit 1", failed_at := isoT0 }

/-- A store whose DLQ holds one record, for job `"a"` only. -/
def stDlqA : Store :=
  { jobs := [], dlq := [dlqRecA], dlqNextId := 2, control_stop := none, config := [] }

/-- The job row produced by enqueueing explicit `attempts := 5`,
`max_retries := 1` into the empty store. -/
def jBad : Job :=
  { id := "jx", command := "true", state := "pending", attempts := 5,
    max_retries := 1, eta := none, created_at := isoT0, updated_at := isoT0 }

/-- The store after that enqueue. -/
def stBad : Store :=
  { jobs := [jBad], dlq := [], dlqNextId := 1, control_stop := none, config := [] }

/-- The store after one failed execution of `jobA` in `stOne`
(retry path: attempts 1, backoff base 2 from the config default). -/
def stOneFailed : Store :=
  (worker_fail_step stOne 0 isoT0 jobA "Exit 1").getD emptyStore

/-! ### Helper lemmas about the embedding -/

theorem find?_map_pred (f : Job → Job) (p : Job → Bool) (hf : ∀ j, p (f j) = p j) :
    ∀ l : List Job, (l.map f).find? p = (l.find? p).map f := by
  intro l
  induction l with
  | nil => rfl
  | cons a t ih =>
      cases hpa : p a with
      | true =>
          simp [List.find?_cons_of_pos, hpa, hf a]
      | false =>
          simp only [List.map_cons]
          rw [List.find?_cons_of_neg _ (by simp [hf a, hpa]),
              List.find?_cons_of_neg _ (by simp [hpa]), ih]

theorem updateWhere_keeps_id (job_id : String) (g : Job → Job)
    (hg : ∀ j, (g j).id = j.id) (j : Job) :
    (if j.id = job_id then g j else j).id = j.id := by
  by_cases h : j.id = job_id <;> simp [h, hg]

theorem find?_updateWhere (job_id tid : String) (g : Job → Job)
    (hg : ∀ j, (g j).id = j.id) (l : List Job) :
    (updateWhere job_id g l).find? (fun j => decide (j.id = tid)) =
      (l.find? (fun j => decide (j.id = tid))).map
        (fun j => if j.id = job_id then g j else j) := by
  apply find?_map_pred
  intro j
  simp [updateWhere_keeps_id job_id g hg j]

theorem getJobRow_id (st : Store) (job_id : String) (j : Job)
    (h : getJobRow st job_id = some j) : j.id = job_id := by
  have := List.find?_some h
  simpa using this

theorem getJobRow_mem (st : Store) (job_id : String) (j : Job)
    (h : getJobRow st job_id = some j) : j ∈ st.jobs :=
  List.mem_of_find?_eq_some h

theorem keyLtB_irrefl (j : Job) : keyLtB j j = false := by
  simp [keyLtB]

theorem keyLtB_asymm (a b : Job) (h : keyLtB a b = true) : keyLtB b a = false := by
  unfold keyLtB at h ⊢
  cases hx : a.eta.isSome <;> cases hy : b.eta.isSome <;>
      simp_all [decide_eq_true_eq] <;>
    exact le_of_lt h

theorem keyLtB_neg_trans (a b c : Job) (hab : keyLtB a b = false)
    (hbc : keyLtB b c = false) : keyLtB a c = false := by
  unfold keyLtB at hab hbc ⊢
  cases hx : a.eta.isSome <;> cases hy : b.eta.isSome <;> cases hz : c.eta.isSome <;>
      simp_all [decide_eq_true_eq] <;>
    exact le_trans hbc hab

theorem selectClaim_none (now : ℚ) : ∀ (l : List Job), selectClaim now l = none →
    ∀ k ∈ l, eligibleB now k = false := by
  intro l
  induction l with
  | nil => intro _ k hk; exact absurd hk (List.not_mem_nil k)
  | cons a t ih =>
      intro h k hk
      cases ha : eligibleB now a with
      | true =>
          exfalso
          simp only [selectClaim, ha, if_true] at h
          cases hr : selectClaim now t with
          | none => simp [hr] at h
          | some b => simp only [hr] at h; split at h <;> simp at h
      | false =>
          simp only [selectClaim, ha, Bool.false_eq_true, if_false] at h
          rcases List.mem_cons.mp hk with rfl | hk'
          · exact ha
          · exact ih h k hk'

theorem selectClaim_some (now : ℚ) : ∀ (l : List Job) (j : Job),
    selectClaim now l = some j →
    j ∈ l ∧ eligibleB now j = true ∧
      ∀ k ∈ l, eligibleB now k = true → keyLtB k j = false := by
  intro l
  induction l with
  | nil => intro j h; cases h
  | cons a t ih =>
      intro j h
      cases ha : eligibleB now a with
      | false =>
          simp only [selectClaim, ha, Bool.false_eq_true, if_false] at h
          obtain ⟨hmem, helig, hmin⟩ := ih j h
          refine ⟨List.mem_cons_of_mem a hmem, helig, ?_⟩
          intro k hk hke
          rcases List.mem_cons.mp hk with rfl | hk'
          · exact absurd hke (by simp [ha])
          · exact hmin k hk' hke
      | true =>
          simp only [selectClaim, ha, if_true] at h
          cases hr : selectClaim now t with
          | none =>
              rw [hr] at h
              have hj := Option.some.inj h
              subst hj
              refine ⟨List.mem_cons_self a t, ha, ?_⟩
              intro k hk hke
              rcases List.mem_cons.mp hk with rfl | hk'
              · exact keyLtB_irrefl k
              · exact absurd hke (by simp [selectClaim_none now t hr k hk'])
          | some b =>
              rw [hr] at h
              have h' : (if keyLtB b a = true then some b else some a) = some j := h
              obtain ⟨hbmem, hbelig, hbmin⟩ := ih b hr
              cases hlt : keyLtB b a with
              | true =>
                  rw [if_pos hlt] at h'
                  have hj := Option.some.inj h'
                  subst hj
                  refine ⟨List.mem_cons_of_mem a hbmem, hbelig, ?_⟩
                  intro k hk hke
                  rcases List.mem_cons.mp hk with rfl | hk'
                  · exact keyLtB_asymm b k hlt
                  · exact hbmin k hk' hke
              | false =>
                  rw [if_neg (by simp [hlt])] at h'
                  have hj := Option.some.inj h'
                  subst hj
                  refine ⟨List.mem_cons_self a t, ha, ?_⟩
                  intro k hk hke
                  rcases List.mem_cons.mp hk with rfl | hk'
                  · exact keyLtB_irrefl k
                  · exact keyLtB_neg_trans k b a (hbmin k hk' hke) hlt

theorem selectClaim_of_eligible (now : ℚ) (l : List Job) (j : Job)
    (hj : j ∈ l) (he : eligibleB now j = true) : (selectClaim now l).isSome := by
  cases hr : selectClaim now l with
  | some b => rfl
  | none => exact absurd he (by simp [selectClaim_none now l hr j hj])

/-! ### Claim theorems -/

/-- C7: `compute_delay base attempts` returns `base ^ attempts` for all
`attempts ≥ 0` (so base 2 yields 1, 2, 4, 8, 16 on attempts 0..4),
clamps negative attempts to zero giving delay `base ^ 0 = 1`, and
accepts non-positive or sub-1 bases without validation (zero, negative
and fractional bases are evaluated like any other). Purity and
determinism hold because `compute_delay` is a total function of its
arguments. -/
theorem c7_compute_delay_spec :
    (∀ (base : ℚ) (a : Int), 0 ≤ a → compute_delay base a = base ^ a.toNat) ∧
    (∀ (base : ℚ) (a : Int), a < 0 → compute_delay base a = 1) ∧
    (compute_delay 2 0 = 1 ∧ compute_delay 2 1 = 2 ∧ compute_delay 2 2 = 4 ∧
      compute_delay 2 3 = 8 ∧ compute_delay 2 4 = 16) ∧
    (compute_delay 0 2 = 0 ∧ compute_delay (-2) 2 = 4 ∧
      compute_delay (1/2) 2 = 1/4) := by
  refine ⟨?_, ?_, ?_, ?_⟩
  · intro base a ha
    simp [compute_delay, not_lt.mpr ha]
  · intro base a ha
    simp [compute_delay, ha]
  · have e2 : (2 : Int).toNat = 2 := rfl
    have e3 : (3 : Int).toNat = 3 := rfl
    have e4 : (4 : Int).toNat = 4 := rfl
    refine ⟨?_, ?_, ?_, ?_, ?_⟩ <;> norm_num [compute_delay, e2, e3, e4]
  · have e2 : (2 : Int).toNat = 2 := rfl
    refine ⟨?_, ?_, ?_⟩ <;> norm_num [compute_delay, e2]

/-- Witness for C7 at concrete inputs. -/
theorem c7_compute_delay_spec_witness :
    compute_delay 2 3 = 2 ^ ((3 : Int)).toNat ∧ compute_delay 2 (-5) = 1 :=
  ⟨c7_compute_delay_spec.1 2 3 (by decide),
   c7_compute_delay_spec.2.1 2 (-5) (by decide)⟩

/-- C8: `retry_from_dlq job_id` on a store with no DLQ record for that
id returns the not-found signal `false` as an ordinary boolean outcome
and leaves the whole store — jobs table and DLQ included — unchanged. -/
theorem c8_retry_from_dlq_not_found (st : Store) (iso jid : String)
    (h : ∀ d ∈ st.dlq, d.job_id ≠ jid) :
    retry_from_dlq st iso jid = (false, st) := by
  have hany : st.dlq.any (fun d => decide (d.job_id = jid)) = false := by
    simp only [List.any_eq_false, decide_eq_true_eq]
    exact h
  simp [retry_from_dlq, hany]

/-- Witness for C8: the store whose DLQ holds only a record for `"a"`
is untouched by retrying `"b"`. -/
theorem c8_retry_from_dlq_not_found_witness :
    retry_from_dlq stDlqA isoT0 "b" = (false, stDlqA) :=
  c8_retry_from_dlq_not_found stDlqA isoT0 "b" (by decide)

/-- C9: the stop flag is idempotent: from any state where no stop is
requested, `clear_stop` changes nothing and leaves
`is_stop_requested` false; `request_stop` twice equals `request_stop`
once and leaves `is_stop_requested` true. No error path exists: both
operations are total. -/
theorem c9_stop_flag_idempotent (st : Store) :
    (is_stop_requested st = false →
      clear_stop st = st ∧ is_stop_requested (clear_stop st) = false) ∧
    (request_stop (request_stop st) = request_stop st ∧
      is_stop_requested (request_stop (request_stop st)) = true) := by
  refine ⟨?_, rfl, rfl⟩
  intro h
  have hc : st.control_stop = none := by
    cases hc : st.control_stop with
    | none => rfl
    | some v => rw [is_stop_requested, hc] at h; cases h
  constructor
  · cases st
    simp_all [clear_stop]
  · simp [is_stop_requested, clear_stop]

/-- Witness for C9 at the concrete one-job store, which has no stop
requested. -/
theorem c9_stop_flag_idempotent_witness :
    clear_stop stOne = stOne ∧
      is_stop_requested (request_stop (request_stop stOne)) = true :=
  ⟨((c9_stop_flag_idempotent stOne).1 rfl).1,
   (c9_stop_flag_idempotent stOne).2.2⟩

theorem keyLtB_false_no_eta (k j : Job) (h : keyLtB k j = false) (hk : k.eta = none) :
    j.eta = none := by
  unfold keyLtB at h
  cases hj : j.eta with
  | none => rfl
  | some e => rw [hk, hj] at h; simp at h

theorem keyLtB_false_same_group (k j : Job) (h : keyLtB k j = false)
    (hsame : k.eta.isSome = j.eta.isSome) : j.created_at ≤ k.created_at := by
  unfold keyLtB at h
  rw [hsame] at h
  have h2 := (Bool.or_eq_false_iff.mp h).2
  rw [beq_self_eq_true, Bool.true_and] at h2
  exact le_of_not_lt (of_decide_eq_false h2)

theorem pop_some_row_processing (st : Store) (now : ℚ) (iso : String) (j : Job)
    (hsel : selectClaim now st.jobs = some j) :
    ∃ j', getJobRow (pop_pending_for_run st now iso).2 j.id = some j' ∧
      j'.state = "processing" ∧ j'.updated_at = iso := by
  obtain ⟨hmem, helig, -⟩ := selectClaim_some now st.jobs j hsel
  have hex : (st.jobs.find? (fun x => decide (x.id = j.id))).isSome := by
    rw [List.find?_isSome]
    exact ⟨j, hmem, by simp⟩
  obtain ⟨j0, hj0⟩ := Option.isSome_iff_exists.mp hex
  have hid0 : j0.id = j.id := by simpa using List.find?_some hj0
  refine ⟨{ j0 with state := "processing", updated_at := iso }, ?_, rfl, rfl⟩
  have hpop2 : (pop_pending_for_run st now iso).2 =
      { st with jobs := updateWhere j.id (fun x =>
          { x with state := "processing", updated_at := iso }) st.jobs } := by
    simp [pop_pending_for_run, hsel]
  rw [hpop2]
  show (updateWhere j.id _ st.jobs).find? (fun x => decide (x.id = j.id)) = _
  rw [find?_updateWhere j.id j.id
        (fun x => { x with state := "processing", updated_at := iso })
        (fun x => rfl) st.jobs, hj0]
  simp [hid0]

/-- C2: the claim operation selects only jobs with
`state='pending'` and `eta` null or due; among eligible jobs a job
with no `eta` is preferred over any with a past-due `eta`, and within
the same group the oldest `created_at` wins; the selected job's stored
row transitions to `processing`; with no eligible job it returns
`none` as a normal outcome and the store is unchanged. -/
theorem c2_claim_next_selection (st : Store) (now : ℚ) (iso : String) :
    (∀ j : Job, (pop_pending_for_run st now iso).1 = some j →
      j ∈ st.jobs ∧ eligibleB now j = true ∧
      ((∃ k ∈ st.jobs, eligibleB now k = true ∧ k.eta = none) → j.eta = none) ∧
      (∀ k ∈ st.jobs, eligibleB now k = true → k.eta.isSome = j.eta.isSome →
        j.created_at ≤ k.created_at) ∧
      (∃ j', getJobRow (pop_pending_for_run st now iso).2 j.id = some j' ∧
        j'.state = "processing")) ∧
    ((pop_pending_for_run st now iso).1 = none →
      (∀ k ∈ st.jobs, eligibleB now k = false) ∧
      (pop_pending_for_run st now iso).2 = st) := by
  cases hsel : selectClaim now st.jobs with
  | none =>
      constructor
      · intro j h
        rw [pop_pending_for_run, hsel] at h
        cases h
      · intro _
        constructor
        · exact selectClaim_none now st.jobs hsel
        · rw [pop_pending_for_run, hsel]
  | some row =>
      constructor
      · intro j h
        rw [pop_pending_for_run, hsel] at h
        have hj := (Option.some.inj h).symm
        subst hj
        obtain ⟨hmem, helig, hmin⟩ := selectClaim_some now st.jobs j hsel
        refine ⟨hmem, helig, ?_, ?_, ?_⟩
        · rintro ⟨k, hk, hke, hknone⟩
          exact keyLtB_false_no_eta k j (hmin k hk hke) hknone
        · intro k hk hke hsame
          exact keyLtB_false_same_group k j (hmin k hk hke) hsame
        · obtain ⟨j', hj', hst, -⟩ := pop_some_row_processing st now iso j hsel
          exact ⟨j', hj', hst⟩
      · intro h
        rw [pop_pending_for_run, hsel] at h
        cases h

/-- Witness for C2 at the one-job store: the pending, `eta`-free job
`jobA` is claimed and its stored row becomes `processing`. -/
theorem c2_claim_next_selection_witness :
    jobA ∈ stOne.jobs ∧ eligibleB 0 jobA = true ∧ jobA.eta = none ∧
      ∃ j', getJobRow (pop_pending_for_run stOne 0 "t9").2 jobA.id = some j' ∧
        j'.state = "processing" := by
  have h := (c2_claim_next_selection stOne 0 "t9").1 jobA (by decide)
  exact ⟨h.1, h.2.1, h.2.2.1 ⟨jobA, by simp [stOne], h.2.1, rfl⟩, h.2.2.2.2⟩

/-- C10: when the claim succeeds, the returned dictionary is the row
snapshot read before the transition — a row of the pre-claim store,
still carrying `state='pending'` and its pre-claim `updated_at` —
while the row stored under the same id has already been set to
`state='processing'` with the fresh `updated_at` timestamp. -/
theorem c10_pop_returns_preclaim_snapshot (st : Store) (now : ℚ) (iso : String)
    (j : Job) (h : (pop_pending_for_run st now iso).1 = some j) :
    j ∈ st.jobs ∧ j.state = "pending" ∧
      ∃ j', getJobRow (pop_pending_for_run st now iso).2 j.id = some j' ∧
        j'.state = "processing" ∧ j'.updated_at = iso := by
  cases hsel : selectClaim now st.jobs with
  | none => rw [pop_pending_for_run, hsel] at h; cases h
  | some row =>
      rw [pop_pending_for_run, hsel] at h
      have hj := (Option.some.inj h).symm
      subst hj
      obtain ⟨hmem, helig, -⟩ := selectClaim_some now st.jobs j hsel
      have hpending : j.state = "pending" := by
        unfold eligibleB at helig
        exact of_decide_eq_true (Bool.and_elim_left helig)
      exact ⟨hmem, hpending, pop_some_row_processing st now iso j hsel⟩

/-- Witness for C10 at the one-job store. -/
theorem c10_pop_returns_preclaim_snapshot_witness :
    jobA ∈ stOne.jobs ∧ jobA.state = "pending" ∧
      ∃ j', getJobRow (pop_pending_for_run stOne 0 "tC").2 jobA.id = some j' ∧
        j'.state = "processing" ∧ j'.updated_at = "tC" :=
  c10_pop_returns_preclaim_snapshot stOne 0 "tC" jobA (by decide)

theorem mem_updateWhere (job_id : String) (g : Job → Job) (l : List Job) (k : Job)
    (hk : k ∈ updateWhere job_id g l) :
    ∃ o ∈ l, k = if o.id = job_id then g o else o := by
  obtain ⟨o, ho, hko⟩ := List.mem_map.mp hk
  exact ⟨o, ho, hko.symm⟩

/-- C3: with the claim transactions serialised (as `BEGIN IMMEDIATE`
guarantees), two callers claiming in sequence never receive the same
job id; and against a store whose only eligible job is `j`, the first
caller receives `j` and the second receives the no-job-available
`none`. -/
theorem c3_concurrent_claim_exclusive (st : Store) (now : ℚ) (iso1 iso2 : String) :
    (∀ j1 j2 : Job,
      (pop_pending_for_run st now iso1).1 = some j1 →
      (pop_pending_for_run (pop_pending_for_run st now iso1).2 now iso2).1 = some j2 →
      j1.id ≠ j2.id) ∧
    (∀ j : Job, j ∈ st.jobs → eligibleB now j = true →
      (∀ k ∈ st.jobs, eligibleB now k = true → k = j) →
      (pop_pending_for_run st now iso1).1 = some j ∧
      (pop_pending_for_run (pop_pending_for_run st now iso1).2 now iso2).1 = none) := by
  constructor
  · intro j1 j2 h1 h2 heq
    cases hsel : selectClaim now st.jobs with
    | none => rw [pop_pending_for_run, hsel] at h1; cases h1
    | some row =>
        rw [pop_pending_for_run, hsel] at h1
        have hrow : row = j1 := Option.some.inj h1
        subst hrow
        have hst1 : (pop_pending_for_run st now iso1).2 =
            { st with jobs := updateWhere row.id (fun x =>
                { x with state := "processing", updated_at := iso1 }) st.jobs } := by
          simp [pop_pending_for_run, hsel]
        rw [hst1] at h2
        cases hsel2 : selectClaim now
            (updateWhere row.id (fun x =>
              { x with state := "processing", updated_at := iso1 }) st.jobs) with
        | none => rw [pop_pending_for_run] at h2; simp only [hsel2] at h2; cases h2
        | some row2 =>
            rw [pop_pending_for_run] at h2
            simp only [hsel2] at h2
            have hrow2 : row2 = j2 := Option.some.inj h2
            subst hrow2
            obtain ⟨hmem2, helig2, -⟩ := selectClaim_some now _ row2 hsel2
            obtain ⟨o, ho, hko⟩ := mem_updateWhere row.id _ st.jobs row2 hmem2
            by_cases hoid : o.id = row.id
            · rw [if_pos hoid] at hko
              rw [hko] at helig2
              simp [eligibleB] at helig2
            · rw [if_neg hoid] at hko
              subst hko
              exact hoid heq.symm
  · intro j hj helig huniq
    have hsome := selectClaim_of_eligible now st.jobs j hj helig
    obtain ⟨row, hsel⟩ := Option.isSome_iff_exists.mp hsome
    obtain ⟨hmem, helig', -⟩ := selectClaim_some now st.jobs row hsel
    have hrow : row = j := huniq row hmem helig'
    subst hrow
    constructor
    · rw [pop_pending_for_run, hsel]
    · have hst1 : (pop_pending_for_run st now iso1).2 =
          { st with jobs := updateWhere row.id (fun x =>
              { x with state := "processing", updated_at := iso1 }) st.jobs } := by
        simp [pop_pending_for_run, hsel]
      rw [hst1]
      cases hsel2 : selectClaim now
          (updateWhere row.id (fun x =>
            { x with state := "processing", updated_at := iso1 }) st.jobs) with
      | none => rw [pop_pending_for_run]; simp only [hsel2]
      | some row2 =>
          exfalso
          obtain ⟨hmem2, helig2, -⟩ := selectClaim_some now _ row2 hsel2
          obtain ⟨o, ho, hko⟩ := mem_updateWhere row.id _ st.jobs row2 hmem2
          by_cases hoid : o.id = row.id
          · rw [if_pos hoid] at hko
            rw [hko] at helig2
            simp [eligibleB] at helig2
          · rw [if_neg hoid] at hko
            subst hko
            exact hoid (congrArg Job.id (huniq row2 ho helig2))

/-- Witness for C3 at the one-job store: the first caller gets `jobA`,
the second gets `none`. -/
theorem c3_concurrent_claim_exclusive_witness :
    (pop_pending_for_run stOne 0 "tA").1 = some jobA ∧
      (pop_pending_for_run (pop_pending_for_run stOne 0 "tA").2 0 "tB").1 = none :=
  (c3_concurrent_claim_exclusive stOne 0 "tA" "tB").2 jobA (by simp [stOne])
    (by decide) (by intro k hk _; simpa [stOne] using hk)

theorem any_id_eq_isSome (l : List Job) (i : String) :
    l.any (fun j => decide (j.id = i)) = (l.find? (fun j => decide (j.id = i))).isSome := by
  rw [Bool.eq_iff_iff, List.any_eq_true, List.find?_isSome]

/-- C4: enqueueing a payload carrying only the required `id` and
`command` inserts a job with `state="pending"`, `attempts=0`,
`max_retries` taken from the config default (config key
`max_retries`, falling back to `"3"`), `created_at`/`updated_at` set
to the current time and `eta=null`, and returns the job id; if a job
with the same id exists, it fails with the duplicate-job error and —
the error branch returning the untouched input store by construction —
performs no state mutation. -/
theorem c4_enqueue_contract (st : Store) (iso i c : String) (mr : Int)
    (hmr : pyInt (config_get st "max_retries" "3") = some mr) :
    (getJobRow st i = none →
      cmd_enqueue st iso { id := i, command := c } =
        Except.ok (i, { st with jobs := st.jobs ++
          [{ id := i, command := c, state := "pending", attempts := 0,
             max_retries := mr, eta := none, created_at := iso,
             updated_at := iso }] })) ∧
    (getJobRow st i ≠ none →
      cmd_enqueue st iso { id := i, command := c } =
        Except.error EnqueueErr.duplicateJob) := by
  have hany : st.jobs.any (fun j => decide (j.id = i)) = (getJobRow st i).isSome :=
    any_id_eq_isSome st.jobs i
  constructor
  · intro hnone
    rw [hnone] at hany
    simp [cmd_enqueue, hmr, Storage.enqueue, hany, pyOr]
  · intro hsome
    have hs : (getJobRow st i).isSome = true := Option.isSome_iff_ne_none.mpr hsome
    rw [hs] at hany
    simp [cmd_enqueue, hmr, Storage.enqueue, hany]

/-- Witness for C4: inserting `"j1"` into the empty store (config
default 3), then the duplicate failure on re-inserting `"a"` into the
store that already holds it. -/
theorem c4_enqueue_contract_witness :
    cmd_enqueue emptyStore isoT0 { id := "j1", command := "true" } =
      Except.ok ("j1", { emptyStore with jobs :=
        [{ id := "j1", command := "true", state := "pending", attempts := 0,
           max_retries := 3, eta := none, created_at := isoT0,
           updated_at := isoT0 }] }) ∧
    cmd_enqueue stOne isoT0 { id := "a", command := "true" } =
      Except.error EnqueueErr.duplicateJob :=
  ⟨(c4_enqueue_contract emptyStore isoT0 "j1" "true" 3 (by decide)).1 rfl,
   (c4_enqueue_contract stOne isoT0 "a" "true" 3 (by decide)).2 (by decide)⟩

/-- C5: for a job present in the store, `move_to_dlq` on its row
followed by `retry_from_dlq` on its id succeeds (`true`), restores the
job row to `state='pending'`, `attempts=0`, `eta=null`, leaves the DLQ
with no record for that id (other ids untouched), and the restored row
is claim-eligible at every time. -/
theorem c5_dlq_roundtrip (st : Store) (iso1 iso2 err : String) (row j0 : Job)
    (hrow : getJobRow st row.id = some j0) :
    (retry_from_dlq (move_to_dlq st iso1 row err) iso2 row.id).1 = true ∧
    getJobRow (retry_from_dlq (move_to_dlq st iso1 row err) iso2 row.id).2 row.id =
      some { j0 with state := "pending", attempts := 0, eta := none,
                     updated_at := iso2 } ∧
    (retry_from_dlq (move_to_dlq st iso1 row err) iso2 row.id).2.dlq =
      st.dlq.filter (fun d => !(decide (d.job_id = row.id))) ∧
    (∀ now : ℚ, eligibleB now
      { j0 with state := "pending", attempts := 0, eta := none,
                updated_at := iso2 } = true) := by
  have hid0 : j0.id = row.id := getJobRow_id st row.id j0 hrow
  have hcond : (move_to_dlq st iso1 row err).dlq.any
      (fun d => decide (d.job_id = row.id)) = true := by
    simp [move_to_dlq]
  have h1 : getJobRow (move_to_dlq st iso1 row err) row.id =
      some { j0 with state := "dead", updated_at := iso1, eta := none } := by
    show (updateWhere row.id _ st.jobs).find? (fun x => decide (x.id = row.id)) = _
    rw [find?_updateWhere row.id row.id
          (fun x => { x with state := "dead", updated_at := iso1, eta := none })
          (fun x => rfl) st.jobs,
        show st.jobs.find? (fun x => decide (x.id = row.id)) = some j0 from hrow]
    simp [hid0]
  refine ⟨by simp [retry_from_dlq, hcond], ?_, ?_, by intro now; simp [eligibleB]⟩
  · have hu : (retry_from_dlq (move_to_dlq st iso1 row err) iso2 row.id).2.jobs =
        updateWhere row.id (fun x =>
          { x with state := "pending", attempts := 0, eta := none,
                   updated_at := iso2 }) (move_to_dlq st iso1 row err).jobs := by
      simp [retry_from_dlq, hcond]
    show ((retry_from_dlq (move_to_dlq st iso1 row err) iso2 row.id).2.jobs).find?
        (fun x => decide (x.id = row.id)) = _
    rw [hu, find?_updateWhere row.id row.id
          (fun x => { x with state := "pending", attempts := 0, eta := none,
                             updated_at := iso2 })
          (fun x => rfl) (move_to_dlq st iso1 row err).jobs,
        show (move_to_dlq st iso1 row err).jobs.find?
            (fun x => decide (x.id = row.id)) =
          some { j0 with state := "dead", updated_at := iso1, eta := none } from h1]
    simp [hid0]
  · have hd : (retry_from_dlq (move_to_dlq st iso1 row err) iso2 row.id).2.dlq =
        (move_to_dlq st iso1 row err).dlq.filter
          (fun d => !(decide (d.job_id = row.id))) := by
      simp [retry_from_dlq, hcond]
    rw [hd]
    simp [move_to_dlq, List.filter_append]

/-- Witness for C5 at the one-job store with `jobA`. -/
theorem c5_dlq_roundtrip_witness :
    (retry_from_dlq (move_to_dlq stOne isoT0 jobA "Exit 1") "t2" jobA.id).1 = true ∧
    getJobRow (retry_from_dlq (move_to_dlq stOne isoT0 jobA "Exit 1") "t2" jobA.id).2
        jobA.id =
      some { jobA with state := "pending", attempts := 0, eta := none,
                       updated_at := "t2" } ∧
    (retry_from_dlq (move_to_dlq stOne isoT0 jobA "Exit 1") "t2" jobA.id).2.dlq =
      stOne.dlq.filter (fun d => !(decide (d.job_id = jobA.id))) ∧
    (∀ now : ℚ, eligibleB now
      { jobA with state := "pending", attempts := 0, eta := none,
                  updated_at := "t2" } = true) :=
  c5_dlq_roundtrip stOne isoT0 "t2" "Exit 1" jobA jobA (by decide)

/-- C6 counterexample: the claim fails as stated. Starting from the
empty store, where the invariant holds vacuously, the store operation
`enqueue` accepts an explicit payload with `attempts = 5`,
`max_retries = 1` and produces a `pending` job with
`attempts > max_retries`: the store operations do not preserve the
invariant for caller-supplied attempt counts. -/
theorem c6_invariant_counterexample :
    Storage.enqueue emptyStore isoT0
        { id := "jx", command := "true", attempts := some 5,
          max_retries := some 1 } = Except.ok ("jx", stBad) ∧
    getJobRow stBad "jx" = some jBad ∧ jBad.state = "pending" ∧
      ¬ jBad.attempts ≤ jBad.max_retries :=
  ⟨rfl, by decide, rfl, by decide⟩

/-- C6 (amended): the invariant `attempts ≤ max_retries` is enforced
by the worker's failure pipeline, not by the bare store operations: a
failed execution whose incremented attempt count exceeds
`max_retries` dead-letters the job (`state='dead'`), and one that does
not leaves a `failed` row that still satisfies
`attempts ≤ max_retries`. The store primitives `enqueue` and
`mark_failed_retry` accept caller-supplied attempt counts without
enforcing the bound. -/
theorem c6_amended_pipeline_keeps_invariant (st : Store) (now : ℚ)
    (iso err : String) (row j0 : Job) (st' : Store)
    (hrow : getJobRow st row.id = some j0)
    (hmax : j0.max_retries = row.max_retries)
    (hstep : worker_fail_step st now iso row err = some st') :
    ∃ row', getJobRow st' row.id = some row' ∧
      (row.attempts + 1 > row.max_retries → row'.state = "dead") ∧
      (row.attempts + 1 ≤ row.max_retries →
        row'.state = "failed" ∧ row'.attempts ≤ row'.max_retries) := by
  have hid0 : j0.id = row.id := getJobRow_id st row.id j0 hrow
  by_cases hcond : row.attempts + 1 > row.max_retries
  · simp only [worker_fail_step, if_pos hcond] at hstep
    have hst' : st' = move_to_dlq st iso row err := (Option.some.inj hstep).symm
    subst hst'
    refine ⟨{ j0 with state := "dead", updated_at := iso, eta := none }, ?_, ?_, ?_⟩
    · show (updateWhere row.id _ st.jobs).find? (fun x => decide (x.id = row.id)) = _
      rw [find?_updateWhere row.id row.id
            (fun x => { x with state := "dead", updated_at := iso, eta := none })
            (fun x => rfl) st.jobs,
          show st.jobs.find? (fun x => decide (x.id = row.id)) = some j0 from hrow]
      simp [hid0]
    · intro _; rfl
    · intro hle; exact absurd hle (by omega)
  · simp only [worker_fail_step, if_neg hcond] at hstep
    cases hpf : pyFloat (config_get st "backoff_base" "2") with
    | none => rw [hpf] at hstep; cases hstep
    | some base =>
        rw [hpf] at hstep
        have hst' : st' = mark_failed_retry st now iso row.id (row.attempts + 1)
            (compute_delay base (row.attempts + 1)) := (Option.some.inj hstep).symm
        subst hst'
        refine ⟨{ j0 with
                    state := "failed"
                    attempts := row.attempts + 1
                    eta := some (now + compute_delay base (row.attempts + 1))
                    updated_at := iso }, ?_, ?_, ?_⟩
        · show (updateWhere row.id _ st.jobs).find?
              (fun x => decide (x.id = row.id)) = _
          rw [find?_updateWhere row.id row.id
                (fun x => { x with
                              state := "failed"
                              attempts := row.attempts + 1
                              eta := some (now + compute_delay base (row.attempts + 1))
                              updated_at := iso })
                (fun x => rfl) st.jobs,
              show st.jobs.find? (fun x => decide (x.id = row.id)) = some j0 from hrow]
          simp [hid0]
        · intro hgt; exact absurd hgt hcond
        · intro hle; exact ⟨rfl, by simp only; omega⟩

/-- Witness for C6 (amended): one failed execution of `jobA` (attempts
0, max_retries 3) in the one-job store takes the retry path. -/
theorem c6_amended_pipeline_keeps_invariant_witness :
    ∃ row', getJobRow stOneFailed jobA.id = some row' ∧
      (jobA.attempts + 1 > jobA.max_retries → row'.state = "dead") ∧
      (jobA.attempts + 1 ≤ jobA.max_retries →
        row'.state = "failed" ∧ row'.attempts ≤ row'.max_retries) :=
  c6_amended_pipeline_keeps_invariant stOne 0 isoT0 "Exit 1" jobA jobA
    stOneFailed (by decide) rfl rfl

theorem fail_iterate_exhaustion (now : ℚ) (iso err jid : String) (N : Nat) :
    ∀ (m : Nat) (st : Store) (row : Job),
      getJobRow st jid = some row →
      row.max_retries = (N : Int) →
      row.attempts + (m : Int) = (N : Int) + 1 →
      1 ≤ m →
      (pyFloat (config_get st "backoff_base" "2")).isSome = true →
      ∃ (st' : Store) (rec : DlqRecord),
        fail_iterate st now iso jid err m = some st' ∧
        st'.dlq = st.dlq ++ [rec] ∧
        rec.job_id = jid ∧ rec.payload.attempts = (N : Int) ∧
        rec.last_error = err ∧
        ∃ row', getJobRow st' jid = some row' ∧ row'.state = "dead" ∧
          row'.attempts = (N : Int) := by
  intro m
  induction m with
  | zero => intro st row _ _ _ hm _; omega
  | succ m ih =>
      intro st row hrow hmax harith _ hbase
      have hid : row.id = jid := getJobRow_id st jid row hrow
      cases m with
      | zero =>
          have hattN : row.attempts = (N : Int) := by push_cast at harith; omega
          have hcond : row.attempts + 1 > row.max_retries := by rw [hattN, hmax]; omega
          refine ⟨move_to_dlq st iso row err,
            { id := st.dlqNextId, job_id := row.id, payload := row,
              last_error := err, failed_at := iso }, ?_, rfl, hid, hattN, rfl, ?_⟩
          · simp only [fail_iterate, hrow, worker_fail_step, if_pos hcond]
          · refine ⟨{ row with state := "dead", updated_at := iso, eta := none },
              ?_, rfl, hattN⟩
            show (updateWhere row.id _ st.jobs).find?
                (fun x => decide (x.id = jid)) = _
            rw [find?_updateWhere row.id jid
                  (fun x => { x with state := "dead", updated_at := iso, eta := none })
                  (fun x => rfl) st.jobs,
                show st.jobs.find? (fun x => decide (x.id = jid)) = some row from hrow]
            simp
      | succ m' =>
          have hcond : ¬ row.attempts + 1 > row.max_retries := by
            rw [hmax]; push_cast at harith; omega
          obtain ⟨base, hq⟩ := Option.isSome_iff_exists.mp hbase
          set st1 := mark_failed_retry st now iso row.id (row.attempts + 1)
            (compute_delay base (row.attempts + 1)) with hst1
          have hrow1 : getJobRow st1 jid = some { row with
              state := "failed"
              attempts := row.attempts + 1
              eta := some (now + compute_delay base (row.attempts + 1))
              updated_at := iso } := by
            show (updateWhere row.id _ st.jobs).find?
                (fun x => decide (x.id = jid)) = _
            rw [find?_updateWhere row.id jid
                  (fun x => { x with
                                state := "failed"
                                attempts := row.attempts + 1
                                eta := some (now + compute_delay base (row.attempts + 1))
                                updated_at := iso })
                  (fun x => rfl) st.jobs,
                show st.jobs.find? (fun x => decide (x.id = jid)) = some row from hrow]
            simp
          obtain ⟨st', rec, hit, hdlq, hrid, hratt, hrerr, hrow'⟩ :=
            ih st1 _ hrow1 hmax (by push_cast at harith ⊢; omega)
              (Nat.succ_le_succ (Nat.zero_le m')) hbase
          refine ⟨st', rec, ?_, hdlq, hrid, hratt, hrerr, hrow'⟩
          simp only [fail_iterate, hrow, worker_fail_step, if_neg hcond, hq]
          exact hit

/-- C1: a job enqueued with `attempts = 0` and `max_retries = N`,
after exactly `N + 1` consecutive failed executions through the
worker's failure pipeline (each failure incrementing the attempt
count, dead-lettering once it exceeds `max_retries`), ends in
terminal state `dead` with exactly one DLQ record for it; the first
`N` failures persist attempts `1..N`, so both the dead row and the
DLQ snapshot carry `attempts = N = max_retries`, the count at the
moment of dead-lettering. -/
theorem c1_retry_exhaustion_dead_letters (st : Store) (now : ℚ)
    (iso err jid : String) (N : Nat) (row : Job)
    (hrow : getJobRow st jid = some row)
    (hatt : row.attempts = 0) (hmax : row.max_retries = (N : Int))
    (hdlq : st.dlq.filter (fun d => decide (d.job_id = jid)) = [])
    (hbase : (pyFloat (config_get st "backoff_base" "2")).isSome = true) :
    ∃ st', fail_iterate st now iso jid err (N + 1) = some st' ∧
      (∃ row', getJobRow st' jid = some row' ∧ row'.state = "dead" ∧
        row'.attempts = (N : Int)) ∧
      ∃ rec, st'.dlq.filter (fun d => decide (d.job_id = jid)) = [rec] ∧
        rec.payload.attempts = (N : Int) ∧ rec.last_error = err := by
  obtain ⟨st', rec, hit, hdlq', hrid, hratt, hrerr, hrow'⟩ :=
    fail_iterate_exhaustion now iso err jid N (N + 1) st row hrow hmax
      (by rw [hatt]; push_cast; ring) (Nat.succ_le_succ (Nat.zero_le N)) hbase
  refine ⟨st', hit, hrow', rec, ?_, hratt, hrerr⟩
  rw [hdlq', List.filter_append, hdlq]
  simp [hrid]

/-- Witness for C1 at the one-job store: `jobA` has `attempts = 0`,
`max_retries = 3`, and four consecutive failures dead-letter it. -/
theorem c1_retry_exhaustion_dead_letters_witness :
    ∃ st', fail_iterate stOne 0 isoT0 "a" "Exit 1" (3 + 1) = some st' ∧
      (∃ row', getJobRow st' "a" = some row' ∧ row'.state = "dead" ∧
        row'.attempts = ((3 : Nat) : Int)) ∧
      ∃ rec, st'.dlq.filter (fun d => decide (d.job_id = "a")) = [rec] ∧
        rec.payload.attempts = ((3 : Nat) : Int) ∧ rec.last_error = "Exit 1" :=
  c1_retry_exhaustion_dead_letters stOne 0 isoT0 "Exit 1" "a" 3 jobA
    (by decide) rfl (by decide) rfl rfl

end Queuectl
